import Mathlib

/-!
Verification of the transaction validation and Starknet-calldata encoding core
of the kakarot-rpc repository (`src/models/transaction.rs`), via a shallow
embedding in Lean 4.

Machine integers (`u64`, `u128`, `U256`, `usize`) are modelled as `Nat` with
explicit bounds where overflow matters.  Starknet field elements (`Felt`) are
modelled as natural numbers reduced modulo the STARK prime; conversions that
are provably lossless in the source (e.g. `usize → Felt`, `u64 → Felt`) are
modelled as the identity, while conversions that reduce (`Felt` addition,
`Felt::from_bytes_be_slice`) carry the explicit `% STARK_PRIME`.

External library calls (`recover_signer`, `encode_without_signature`) are
abstracted as fields of the transaction record: the embedding carries the
recovery result and the signature-free serialization as data, since their
internals live in upstream crates and no claim depends on them.
-/

namespace KakarotRpc

/-- The STARK field prime `2^251 + 17·2^192 + 1`, the modulus of Starknet's
`Felt` type. -/
def STARK_PRIME : Nat := 2 ^ 251 + 17 * 2 ^ 192 + 1

/-- Canonical reduction of a natural number into the felt range, modelling
`Felt` construction from an unbounded integer. -/
def feltOfNat (x : Nat) : Nat := x % STARK_PRIME

/-- Felt addition, modelling `starknet::core::types::Felt`'s `Add` instance
(addition modulo the STARK prime). -/
def feltAdd (a b : Nat) : Nat := (a + b) % STARK_PRIME

/-- The ECDSA signature attached to a signed transaction:
`r`, `s` are 256-bit unsigned integers, `odd_y_parity` the parity bit
(`reth_primitives::Signature`). -/
structure Signature where
  r : Nat
  s : Nat
  odd_y_parity : Bool
  deriving DecidableEq

/-- Shallow embedding of `reth_primitives::TransactionSigned`, restricted to
the observations the source file makes of it:
* `isLegacy` — whether `transaction` matches `Transaction::Legacy(_)`;
* `chain_id` — result of `chain_id()` (`Option<u64>`);
* `gas_limit` — result of `gas_limit()` (`u64`);
* `max_fee_per_gas` — result of `max_fee_per_gas()` (`u128`);
* `max_priority_fee_per_gas` — result of `max_priority_fee_per_gas()`
  (`Option<u128>`);
* `hash` — the transaction hash (`B256`, modelled as a number);
* `signature` — the attached signature;
* `recover_signer` — result of `recover_signer()` (`Option<Address>`), the
  upstream ECDSA recovery abstracted as data;
* `signedData` — the byte string produced by
  `transaction.encode_without_signature(...)`, the upstream RLP encoding
  abstracted as data (a list of bytes, each `< 256`). -/
structure TransactionSigned where
  isLegacy : Bool
  chain_id : Option Nat
  gas_limit : Nat
  max_fee_per_gas : Nat
  max_priority_fee_per_gas : Option Nat
  hash : Nat
  signature : Signature
  recover_signer : Option Nat
  signedData : List Nat

/-- Shallow embedding of `reth_rpc_types::Header`, restricted to the two
fields the validator reads: `base_fee_per_gas` (`Option<u128>`) and
`gas_limit` (`u128`). -/
structure Header where
  base_fee_per_gas : Option Nat
  gas_limit : Nat

/-- The error taxonomy of the source file: the `TransactionError` and
`SignatureError` variants it constructs, plus `CalldataExceededLimit`, all
wrapped into `EthApiError` as the source does via `.into()`. -/
inductive EthApiError where
  | GasOverflow
  | SignatureRecovery
  | InvalidChainId
  | InvalidTransactionType
  | FeeCapTooLow (maxFee baseFee : Nat)
  | TipAboveFeeCap (maxFee tip : Nat)
  | ExceedsBlockGasLimit (txLimit blockLimit : Nat)
  | CalldataExceededLimit (lim actual : Nat)
  deriving DecidableEq

/-- `maybe_chain_id.map_or(true, |c| c == chain_id)` from the source's
chain-id check. -/
def chainIdMatches (maybe_chain_id : Option Nat) (chain_id : Nat) : Bool :=
  match maybe_chain_id with
  | none => true
  | some c => c == chain_id

/-- Shallow embedding of `validate_transaction`
(`src/models/transaction.rs`, lines 29–80).  The two process-wide globals the
function reads — the constant `TRACING_BLOCK_GAS_LIMIT` and the pre-EIP-155
whitelist `get_white_listed_eip_155_transaction_hashes()` — are passed as
explicit parameters (`tracing_block_gas_limit`, `whitelist`), since their
values live outside this file; every theorem below quantifies over them. -/
def validate_transaction (transaction_signed : TransactionSigned)
    (chain_id : Nat) (previous_block_header : Header)
    (whitelist : List Nat) (tracing_block_gas_limit : Nat) :
    Except EthApiError Unit :=
  if transaction_signed.gas_limit > tracing_block_gas_limit then
    .error .GasOverflow
  else if transaction_signed.recover_signer.isNone then
    .error .SignatureRecovery
  else if ¬ (chainIdMatches transaction_signed.chain_id chain_id = true) then
    .error .InvalidChainId
  else if transaction_signed.chain_id.isNone
      && !(whitelist.contains transaction_signed.hash) then
    .error .InvalidTransactionType
  else
    let base_fee := previous_block_header.base_fee_per_gas.getD 0
    let max_fee_per_gas := transaction_signed.max_fee_per_gas
    if base_fee > max_fee_per_gas then
      .error (.FeeCapTooLow max_fee_per_gas base_fee)
    else
      let max_priority_fee_per_gas :=
        transaction_signed.max_priority_fee_per_gas.getD 0
      if max_priority_fee_per_gas > max_fee_per_gas then
        .error (.TipAboveFeeCap max_fee_per_gas max_priority_fee_per_gas)
      else if transaction_signed.gas_limit > previous_block_header.gas_limit then
        .error (.ExceedsBlockGasLimit transaction_signed.gas_limit
          previous_block_header.gas_limit)
      else
        .ok ()

/-! The seven checks of §4.1 of the specification, as predicates on the
inputs (the "pass" condition of each check). -/

/-- Check 1 (gas-limit ceiling) passes. -/
def gasCeilOk (tx : TransactionSigned) (tracing_block_gas_limit : Nat) : Prop :=
  tx.gas_limit ≤ tracing_block_gas_limit

/-- Check 2 (signature recoverability) passes. -/
def sigRecoverOk (tx : TransactionSigned) : Prop :=
  tx.recover_signer ≠ none

/-- Check 3 (chain-id match) passes: the transaction carries no explicit
chain id or it equals the expected one. -/
def chainIdOk (tx : TransactionSigned) (chain_id : Nat) : Prop :=
  ∀ c, tx.chain_id = some c → c = chain_id

/-- Check 4 (pre-EIP-155 whitelist) passes: if the transaction has no chain
id, its hash is whitelisted. -/
def whitelistOk (tx : TransactionSigned) (whitelist : List Nat) : Prop :=
  tx.chain_id = none → tx.hash ∈ whitelist

/-- Check 5 (fee-cap floor) passes: the base fee (defaulting to zero) does
not exceed the fee cap. -/
def feeCapOk (tx : TransactionSigned) (hdr : Header) : Prop :=
  hdr.base_fee_per_gas.getD 0 ≤ tx.max_fee_per_gas

/-- Check 6 (tip bound) passes: the priority fee (defaulting to zero) does
not exceed the fee cap. -/
def tipOk (tx : TransactionSigned) : Prop :=
  tx.max_priority_fee_per_gas.getD 0 ≤ tx.max_fee_per_gas

/-- Check 7 (block gas bound) passes. -/
def blockGasOk (tx : TransactionSigned) (hdr : Header) : Prop :=
  tx.gas_limit ≤ hdr.gas_limit

theorem chainIdMatches_iff (o : Option Nat) (cid : Nat) :
    chainIdMatches o cid = true ↔ ∀ c, o = some c → c = cid := by
  cases o with
  | none => simp [chainIdMatches]
  | some c => simp [chainIdMatches]

theorem whitelist_cond_iff (tx : TransactionSigned) (wl : List Nat) :
    (tx.chain_id.isNone && !(wl.contains tx.hash)) = true ↔
      tx.chain_id = none ∧ tx.hash ∉ wl := by
  simp [List.contains, Option.isNone_iff_eq_none]

theorem v_err_gas (tx : TransactionSigned) (cid : Nat) (hdr : Header)
    (wl : List Nat) (T : Nat) (h : ¬ gasCeilOk tx T) :
    validate_transaction tx cid hdr wl T = .error .GasOverflow := by
  have h' : tx.gas_limit > T := Nat.lt_of_not_le h
  simp only [validate_transaction, if_pos h']

theorem v_err_sig (tx : TransactionSigned) (cid : Nat) (hdr : Header)
    (wl : List Nat) (T : Nat) (h1 : gasCeilOk tx T) (h2 : ¬ sigRecoverOk tx) :
    validate_transaction tx cid hdr wl T = .error .SignatureRecovery := by
  have h2' : tx.recover_signer.isNone = true := by
    simp only [Option.isNone_iff_eq_none]
    exact not_not.mp h2
  simp only [validate_transaction, if_neg (Nat.not_lt.mpr h1), if_pos h2']

theorem v_err_chain (tx : TransactionSigned) (cid : Nat) (hdr : Header)
    (wl : List Nat) (T : Nat) (h1 : gasCeilOk tx T) (h2 : sigRecoverOk tx)
    (h3 : ¬ chainIdOk tx cid) :
    validate_transaction tx cid hdr wl T = .error .InvalidChainId := by
  have h2' : ¬ tx.recover_signer.isNone = true := by
    simp only [Option.isNone_iff_eq_none]
    exact h2
  have h3' : ¬ chainIdMatches tx.chain_id cid = true := fun hm =>
    h3 ((chainIdMatches_iff tx.chain_id cid).mp hm)
  simp only [validate_transaction, if_neg (Nat.not_lt.mpr h1), if_neg h2',
    if_pos h3']

theorem v_err_whitelist (tx : TransactionSigned) (cid : Nat) (hdr : Header)
    (wl : List Nat) (T : Nat) (h1 : gasCeilOk tx T) (h2 : sigRecoverOk tx)
    (h3 : chainIdOk tx cid) (h4 : ¬ whitelistOk tx wl) :
    validate_transaction tx cid hdr wl T = .error .InvalidTransactionType := by
  have h2' : ¬ tx.recover_signer.isNone = true := by
    simp only [Option.isNone_iff_eq_none]
    exact h2
  have h3' : ¬¬ chainIdMatches tx.chain_id cid = true :=
    not_not_intro ((chainIdMatches_iff tx.chain_id cid).mpr h3)
  have h4' : (tx.chain_id.isNone && !(wl.contains tx.hash)) = true := by
    rw [whitelist_cond_iff]
    rcases Classical.not_imp.mp h4 with ⟨ha, hb⟩
    exact ⟨ha, hb⟩
  simp only [validate_transaction, if_neg (Nat.not_lt.mpr h1), if_neg h2',
    if_neg h3', if_pos h4']

theorem v_err_feecap (tx : TransactionSigned) (cid : Nat) (hdr : Header)
    (wl : List Nat) (T : Nat) (h1 : gasCeilOk tx T) (h2 : sigRecoverOk tx)
    (h3 : chainIdOk tx cid) (h4 : whitelistOk tx wl) (h5 : ¬ feeCapOk tx hdr) :
    validate_transaction tx cid hdr wl T =
      .error (.FeeCapTooLow tx.max_fee_per_gas
        (hdr.base_fee_per_gas.getD 0)) := by
  have h2' : ¬ tx.recover_signer.isNone = true := by
    simp only [Option.isNone_iff_eq_none]
    exact h2
  have h3' : ¬¬ chainIdMatches tx.chain_id cid = true :=
    not_not_intro ((chainIdMatches_iff tx.chain_id cid).mpr h3)
  have h4' : ¬ (tx.chain_id.isNone && !(wl.contains tx.hash)) = true := by
    rw [whitelist_cond_iff]
    rintro ⟨ha, hb⟩
    exact hb (h4 ha)
  have h5' : hdr.base_fee_per_gas.getD 0 > tx.max_fee_per_gas :=
    Nat.lt_of_not_le h5
  simp only [validate_transaction, if_neg (Nat.not_lt.mpr h1), if_neg h2',
    if_neg h3', if_neg h4', if_pos h5']

theorem v_err_tip (tx : TransactionSigned) (cid : Nat) (hdr : Header)
    (wl : List Nat) (T : Nat) (h1 : gasCeilOk tx T) (h2 : sigRecoverOk tx)
    (h3 : chainIdOk tx cid) (h4 : whitelistOk tx wl) (h5 : feeCapOk tx hdr)
    (h6 : ¬ tipOk tx) :
    validate_transaction tx cid hdr wl T =
      .error (.TipAboveFeeCap tx.max_fee_per_gas
        (tx.max_priority_fee_per_gas.getD 0)) := by
  have h2' : ¬ tx.recover_signer.isNone = true := by
    simp only [Option.isNone_iff_eq_none]
    exact h2
  have h3' : ¬¬ chainIdMatches tx.chain_id cid = true :=
    not_not_intro ((chainIdMatches_iff tx.chain_id cid).mpr h3)
  have h4' : ¬ (tx.chain_id.isNone && !(wl.contains tx.hash)) = true := by
    rw [whitelist_cond_iff]
    rintro ⟨ha, hb⟩
    exact hb (h4 ha)
  have h6' : tx.max_priority_fee_per_gas.getD 0 > tx.max_fee_per_gas :=
    Nat.lt_of_not_le h6
  simp only [validate_transaction, if_neg (Nat.not_lt.mpr h1), if_neg h2',
    if_neg h3', if_neg h4', if_neg (Nat.not_lt.mpr h5), if_pos h6']

theorem v_err_blockgas (tx : TransactionSigned) (cid : Nat) (hdr : Header)
    (wl : List Nat) (T : Nat) (h1 : gasCeilOk tx T) (h2 : sigRecoverOk tx)
    (h3 : chainIdOk tx cid) (h4 : whitelistOk tx wl) (h5 : feeCapOk tx hdr)
    (h6 : tipOk tx) (h7 : ¬ blockGasOk tx hdr) :
    validate_transaction tx cid hdr wl T =
      .error (.ExceedsBlockGasLimit tx.gas_limit hdr.gas_limit) := by
  have h2' : ¬ tx.recover_signer.isNone = true := by
    simp only [Option.isNone_iff_eq_none]
    exact h2
  have h3' : ¬¬ chainIdMatches tx.chain_id cid = true :=
    not_not_intro ((chainIdMatches_iff tx.chain_id cid).mpr h3)
  have h4' : ¬ (tx.chain_id.isNone && !(wl.contains tx.hash)) = true := by
    rw [whitelist_cond_iff]
    rintro ⟨ha, hb⟩
    exact hb (h4 ha)
  have h7' : tx.gas_limit > hdr.gas_limit := Nat.lt_of_not_le h7
  simp only [validate_transaction, if_neg (Nat.not_lt.mpr h1), if_neg h2',
    if_neg h3', if_neg h4', if_neg (Nat.not_lt.mpr h5),
    if_neg (Nat.not_lt.mpr h6), if_pos h7']

theorem v_ok (tx : TransactionSigned) (cid : Nat) (hdr : Header)
    (wl : List Nat) (T : Nat) (h1 : gasCeilOk tx T) (h2 : sigRecoverOk tx)
    (h3 : chainIdOk tx cid) (h4 : whitelistOk tx wl) (h5 : feeCapOk tx hdr)
    (h6 : tipOk tx) (h7 : blockGasOk tx hdr) :
    validate_transaction tx cid hdr wl T = .ok () := by
  have h2' : ¬ tx.recover_signer.isNone = true := by
    simp only [Option.isNone_iff_eq_none]
    exact h2
  have h3' : ¬¬ chainIdMatches tx.chain_id cid = true :=
    not_not_intro ((chainIdMatches_iff tx.chain_id cid).mpr h3)
  have h4' : ¬ (tx.chain_id.isNone && !(wl.contains tx.hash)) = true := by
    rw [whitelist_cond_iff]
    rintro ⟨ha, hb⟩
    exact hb (h4 ha)
  simp only [validate_transaction, if_neg (Nat.not_lt.mpr h1), if_neg h2',
    if_neg h3', if_neg h4', if_neg (Nat.not_lt.mpr h5),
    if_neg (Nat.not_lt.mpr h6), if_neg (Nat.not_lt.mpr h7)]

theorem v_ok_iff (tx : TransactionSigned) (cid : Nat) (hdr : Header)
    (wl : List Nat) (T : Nat) :
    validate_transaction tx cid hdr wl T = .ok () ↔
      gasCeilOk tx T ∧ sigRecoverOk tx ∧ chainIdOk tx cid ∧
      whitelistOk tx wl ∧ feeCapOk tx hdr ∧ tipOk tx ∧ blockGasOk tx hdr := by
  constructor
  · intro h
    simp only [validate_transaction] at h
    split_ifs at h with h1 h2 h3 h4 h5 h6 h7
    refine ⟨Nat.le_of_not_lt h1, ?_, ?_, ?_, Nat.le_of_not_lt h5,
      Nat.le_of_not_lt h6, Nat.le_of_not_lt h7⟩
    · intro hnone
      rw [Option.isNone_iff_eq_none] at h2
      exact h2 hnone
    · exact (chainIdMatches_iff tx.chain_id cid).mp h3
    · intro hnone
      by_contra hmem
      exact h4 ((whitelist_cond_iff tx wl).mpr ⟨hnone, hmem⟩)
  · rintro ⟨h1, h2, h3, h4, h5, h6, h7⟩
    exact v_ok tx cid hdr wl T h1 h2 h3 h4 h5 h6 h7

/-- C1: `validate_transaction` applies the seven checks in the fixed order,
returns the error of the first failing check (later checks are never
consulted), and returns `Ok(())` exactly when all seven pass; any
transaction with `gas_limit > TRACING_BLOCK_GAS_LIMIT` yields `GasOverflow`
regardless of every other field. -/
theorem validate_transaction_first_failure (tx : TransactionSigned)
    (cid : Nat) (hdr : Header) (wl : List Nat) (T : Nat) :
    (¬ gasCeilOk tx T →
      validate_transaction tx cid hdr wl T = .error .GasOverflow) ∧
    (gasCeilOk tx T → ¬ sigRecoverOk tx →
      validate_transaction tx cid hdr wl T = .error .SignatureRecovery) ∧
    (gasCeilOk tx T → sigRecoverOk tx → ¬ chainIdOk tx cid →
      validate_transaction tx cid hdr wl T = .error .InvalidChainId) ∧
    (gasCeilOk tx T → sigRecoverOk tx → chainIdOk tx cid →
      ¬ whitelistOk tx wl →
      validate_transaction tx cid hdr wl T = .error .InvalidTransactionType) ∧
    (gasCeilOk tx T → sigRecoverOk tx → chainIdOk tx cid →
      whitelistOk tx wl → ¬ feeCapOk tx hdr →
      validate_transaction tx cid hdr wl T =
        .error (.FeeCapTooLow tx.max_fee_per_gas
          (hdr.base_fee_per_gas.getD 0))) ∧
    (gasCeilOk tx T → sigRecoverOk tx → chainIdOk tx cid →
      whitelistOk tx wl → feeCapOk tx hdr → ¬ tipOk tx →
      validate_transaction tx cid hdr wl T =
        .error (.TipAboveFeeCap tx.max_fee_per_gas
          (tx.max_priority_fee_per_gas.getD 0))) ∧
    (gasCeilOk tx T → sigRecoverOk tx → chainIdOk tx cid →
      whitelistOk tx wl → feeCapOk tx hdr → tipOk tx →
      ¬ blockGasOk tx hdr →
      validate_transaction tx cid hdr wl T =
        .error (.ExceedsBlockGasLimit tx.gas_limit hdr.gas_limit)) ∧
    (validate_transaction tx cid hdr wl T = .ok () ↔
      gasCeilOk tx T ∧ sigRecoverOk tx ∧ chainIdOk tx cid ∧
      whitelistOk tx wl ∧ feeCapOk tx hdr ∧ tipOk tx ∧ blockGasOk tx hdr) :=
  ⟨v_err_gas tx cid hdr wl T,
   v_err_sig tx cid hdr wl T,
   v_err_chain tx cid hdr wl T,
   v_err_whitelist tx cid hdr wl T,
   v_err_feecap tx cid hdr wl T,
   v_err_tip tx cid hdr wl T,
   v_err_blockgas tx cid hdr wl T,
   v_ok_iff tx cid hdr wl T⟩

theorem v_past_whitelist_ne_invalidtxtype (tx : TransactionSigned) (cid : Nat)
    (hdr : Header) (wl : List Nat) (T : Nat) (h1 : gasCeilOk tx T)
    (h2 : sigRecoverOk tx) (h3 : chainIdOk tx cid) (h4 : whitelistOk tx wl) :
    validate_transaction tx cid hdr wl T ≠ .error .InvalidTransactionType := by
  by_cases h5 : feeCapOk tx hdr
  · by_cases h6 : tipOk tx
    · by_cases h7 : blockGasOk tx hdr
      · rw [v_ok tx cid hdr wl T h1 h2 h3 h4 h5 h6 h7]
        simp
      · rw [v_err_blockgas tx cid hdr wl T h1 h2 h3 h4 h5 h6 h7]
        simp
    · rw [v_err_tip tx cid hdr wl T h1 h2 h3 h4 h5 h6]
      simp
  · rw [v_err_feecap tx cid hdr wl T h1 h2 h3 h4 h5]
    simp

/-- C2: past the gas-ceiling and signature checks, an explicit chain id
different from the expected one yields `InvalidChainId`; the whitelist check
is reached only for transactions without a chain id, and then the result is
`InvalidTransactionType` exactly when the hash is absent from the whitelist
(with the hash present, the transaction passes this check). -/
theorem validate_transaction_chain_id_whitelist (tx : TransactionSigned)
    (cid : Nat) (hdr : Header) (wl : List Nat) (T : Nat)
    (h1 : gasCeilOk tx T) (h2 : sigRecoverOk tx) :
    (∀ c, tx.chain_id = some c → c ≠ cid →
      validate_transaction tx cid hdr wl T = .error .InvalidChainId) ∧
    (tx.chain_id = none →
      (validate_transaction tx cid hdr wl T = .error .InvalidTransactionType ↔
        tx.hash ∉ wl)) ∧
    (tx.chain_id ≠ none →
      validate_transaction tx cid hdr wl T ≠ .error .InvalidTransactionType) := by
  refine ⟨?_, ?_, ?_⟩
  · intro c hc hne
    refine v_err_chain tx cid hdr wl T h1 h2 ?_
    intro hok
    exact hne (hok c hc)
  · intro hnone
    have h3 : chainIdOk tx cid := by
      intro c hc
      rw [hnone] at hc
      exact absurd hc (by simp)
    constructor
    · intro herr
      by_contra hmem
      have h4 : whitelistOk tx wl := fun _ => hmem
      exact v_past_whitelist_ne_invalidtxtype tx cid hdr wl T h1 h2 h3 h4 herr
    · intro hmem
      refine v_err_whitelist tx cid hdr wl T h1 h2 h3 ?_
      intro hok
      exact hmem (hok hnone)
  · intro hsome
    obtain ⟨c, hc⟩ := Option.ne_none_iff_exists'.mp hsome
    by_cases heq : c = cid
    · have h3 : chainIdOk tx cid := by
        intro d hd
        rw [hc] at hd
        cases hd
        exact heq
      have h4 : whitelistOk tx wl := by
        intro hnone
        rw [hc] at hnone
        exact absurd hnone (by simp)
      exact v_past_whitelist_ne_invalidtxtype tx cid hdr wl T h1 h2 h3 h4
    · rw [v_err_chain tx cid hdr wl T h1 h2
        (fun hok => heq (hok c hc))]
      simp

theorem v_feecap_args (tx : TransactionSigned) (cid : Nat) (hdr : Header)
    (wl : List Nat) (T : Nat) (h1 : gasCeilOk tx T) (h2 : sigRecoverOk tx)
    (h3 : chainIdOk tx cid) (h4 : whitelistOk tx wl) :
    ∀ a b, validate_transaction tx cid hdr wl T = .error (.FeeCapTooLow a b) →
      a = tx.max_fee_per_gas ∧ b = hdr.base_fee_per_gas.getD 0 ∧ a < b := by
  intro a b h
  by_cases h5 : feeCapOk tx hdr
  · by_cases h6 : tipOk tx
    · by_cases h7 : blockGasOk tx hdr
      · rw [v_ok tx cid hdr wl T h1 h2 h3 h4 h5 h6 h7] at h
        exact absurd h (by simp)
      · rw [v_err_blockgas tx cid hdr wl T h1 h2 h3 h4 h5 h6 h7] at h
        exact absurd h (by simp)
    · rw [v_err_tip tx cid hdr wl T h1 h2 h3 h4 h5 h6] at h
      exact absurd h (by simp)
  · rw [v_err_feecap tx cid hdr wl T h1 h2 h3 h4 h5] at h
    have hlt : tx.max_fee_per_gas < hdr.base_fee_per_gas.getD 0 :=
      Nat.lt_of_not_le h5
    simp only [Except.error.injEq, EthApiError.FeeCapTooLow.injEq] at h
    exact ⟨h.1.symm, h.2.symm, h.1 ▸ h.2 ▸ hlt⟩

theorem v_tip_args (tx : TransactionSigned) (cid : Nat) (hdr : Header)
    (wl : List Nat) (T : Nat) (h1 : gasCeilOk tx T) (h2 : sigRecoverOk tx)
    (h3 : chainIdOk tx cid) (h4 : whitelistOk tx wl) :
    ∀ a b, validate_transaction tx cid hdr wl T = .error (.TipAboveFeeCap a b) →
      a = tx.max_fee_per_gas ∧ b = tx.max_priority_fee_per_gas.getD 0 ∧
        a < b := by
  intro a b h
  by_cases h5 : feeCapOk tx hdr
  · by_cases h6 : tipOk tx
    · by_cases h7 : blockGasOk tx hdr
      · rw [v_ok tx cid hdr wl T h1 h2 h3 h4 h5 h6 h7] at h
        exact absurd h (by simp)
      · rw [v_err_blockgas tx cid hdr wl T h1 h2 h3 h4 h5 h6 h7] at h
        exact absurd h (by simp)
    · rw [v_err_tip tx cid hdr wl T h1 h2 h3 h4 h5 h6] at h
      have hlt : tx.max_fee_per_gas < tx.max_priority_fee_per_gas.getD 0 :=
        Nat.lt_of_not_le h6
      simp only [Except.error.injEq, EthApiError.TipAboveFeeCap.injEq] at h
      exact ⟨h.1.symm, h.2.symm, h.1 ▸ h.2 ▸ hlt⟩
  · rw [v_err_feecap tx cid hdr wl T h1 h2 h3 h4 h5] at h
    exact absurd h (by simp)

/-- C3: for a transaction reaching the fee checks, the result is
`FeeCapTooLow(max_fee_per_gas, base_fee)` exactly when `base_fee`
(the header's base fee, zero when absent) exceeds `max_fee_per_gas`, and —
when the fee-cap check passes — the result is
`TipAboveFeeCap(max_fee_per_gas, priority_fee)` exactly when `priority_fee`
(zero when absent) exceeds `max_fee_per_gas`; each error carries exactly
those two values in that order. -/
theorem validate_transaction_fee_checks (tx : TransactionSigned)
    (cid : Nat) (hdr : Header) (wl : List Nat) (T : Nat)
    (h1 : gasCeilOk tx T) (h2 : sigRecoverOk tx) (h3 : chainIdOk tx cid)
    (h4 : whitelistOk tx wl) :
    (validate_transaction tx cid hdr wl T =
        .error (.FeeCapTooLow tx.max_fee_per_gas
          (hdr.base_fee_per_gas.getD 0)) ↔
      hdr.base_fee_per_gas.getD 0 > tx.max_fee_per_gas) ∧
    (feeCapOk tx hdr →
      (validate_transaction tx cid hdr wl T =
          .error (.TipAboveFeeCap tx.max_fee_per_gas
            (tx.max_priority_fee_per_gas.getD 0)) ↔
        tx.max_priority_fee_per_gas.getD 0 > tx.max_fee_per_gas)) ∧
    (∀ a b, validate_transaction tx cid hdr wl T =
        .error (.FeeCapTooLow a b) →
      a = tx.max_fee_per_gas ∧ b = hdr.base_fee_per_gas.getD 0) ∧
    (∀ a b, validate_transaction tx cid hdr wl T =
        .error (.TipAboveFeeCap a b) →
      a = tx.max_fee_per_gas ∧ b = tx.max_priority_fee_per_gas.getD 0) := by
  refine ⟨?_, ?_, ?_, ?_⟩
  · constructor
    · intro h
      exact (v_feecap_args tx cid hdr wl T h1 h2 h3 h4 _ _ h).2.2
    · intro hlt
      exact v_err_feecap tx cid hdr wl T h1 h2 h3 h4 (Nat.not_le.mpr hlt)
  · intro h5
    constructor
    · intro h
      exact (v_tip_args tx cid hdr wl T h1 h2 h3 h4 _ _ h).2.2
    · intro hlt
      exact v_err_tip tx cid hdr wl T h1 h2 h3 h4 h5 (Nat.not_le.mpr hlt)
  · intro a b h
    exact ⟨(v_feecap_args tx cid hdr wl T h1 h2 h3 h4 a b h).1,
      (v_feecap_args tx cid hdr wl T h1 h2 h3 h4 a b h).2.1⟩
  · intro a b h
    exact ⟨(v_tip_args tx cid hdr wl T h1 h2 h3 h4 a b h).1,
      (v_tip_args tx cid hdr wl T h1 h2 h3 h4 a b h).2.1⟩

/-! ## Signature extraction (`transaction_signature_to_field_elements`) -/

/-- Modelled from the spec: `split_u256` is defined in
`eth_provider/utils.rs`, outside the provided sources.  Per the spec it
splits a 256-bit value into its high and low 128-bit halves, each half
converted losslessly to one field element, producing the high half first. -/
def split_u256 (x : Nat) : List Nat :=
  [feltOfNat (x / 2 ^ 128), feltOfNat (x % 2 ^ 128)]

/-- Modelled from the spec: the recovery value computation `Signature::v` of
the upstream `reth_primitives` crate — `v = parity + 2·chain_id + 35` when a
chain id is present, `v = parity + 27` when absent. -/
def signature_v (sig : Signature) (chain_id : Option Nat) : Nat :=
  match chain_id with
  | some c => (if sig.odd_y_parity then 1 else 0) + c * 2 + 35
  | none => (if sig.odd_y_parity then 1 else 0) + 27

/-- Shallow embedding of `transaction_signature_to_field_elements`
(`src/models/transaction.rs`, lines 85–104): `r` and `s` split into felt
halves, then the recovery element — `v` for legacy transactions
(`u64 → Felt` is lossless, the modulus exceeding `2^64 + 36`), the raw
parity bit otherwise. -/
def transaction_signature_to_field_elements (tx : TransactionSigned) :
    List Nat :=
  split_u256 tx.signature.r ++ split_u256 tx.signature.s ++
    [if tx.isLegacy then signature_v tx.signature tx.chain_id
     else if tx.signature.odd_y_parity then 1 else 0]

theorem two_pow_128_lt_prime : 2 ^ 128 < STARK_PRIME := by
  unfold STARK_PRIME
  norm_num

theorem feltOfNat_eq_of_lt {x : Nat} (h : x < STARK_PRIME) :
    feltOfNat x = x :=
  Nat.mod_eq_of_lt h

theorem split_u256_eq {x : Nat} (hx : x < 2 ^ 256) :
    split_u256 x = [x / 2 ^ 128, x % 2 ^ 128] := by
  have hhi : x / 2 ^ 128 < 2 ^ 128 := by
    apply Nat.div_lt_of_lt_mul
    calc x < 2 ^ 256 := hx
    _ = 2 ^ 128 * 2 ^ 128 := by norm_num
  have hlo : x % 2 ^ 128 < 2 ^ 128 := Nat.mod_lt _ (by norm_num)
  unfold split_u256
  rw [feltOfNat_eq_of_lt (lt_trans hhi two_pow_128_lt_prime),
    feltOfNat_eq_of_lt (lt_trans hlo two_pow_128_lt_prime)]

/-- C4: the signature extractor returns exactly the five elements
`[r_high, r_low, s_high, s_low, recovery_element]`, with the high/low
splits lossless: `high · 2^128 + low` reconstructs the 256-bit original. -/
theorem transaction_signature_five_elements (tx : TransactionSigned)
    (hr : tx.signature.r < 2 ^ 256) (hs : tx.signature.s < 2 ^ 256) :
    transaction_signature_to_field_elements tx =
      [tx.signature.r / 2 ^ 128, tx.signature.r % 2 ^ 128,
       tx.signature.s / 2 ^ 128, tx.signature.s % 2 ^ 128,
       if tx.isLegacy then signature_v tx.signature tx.chain_id
       else if tx.signature.odd_y_parity then 1 else 0] ∧
    (transaction_signature_to_field_elements tx).length = 5 ∧
    (tx.signature.r / 2 ^ 128) * 2 ^ 128 + tx.signature.r % 2 ^ 128 =
      tx.signature.r ∧
    (tx.signature.s / 2 ^ 128) * 2 ^ 128 + tx.signature.s % 2 ^ 128 =
      tx.signature.s := by
  have he : transaction_signature_to_field_elements tx =
      [tx.signature.r / 2 ^ 128, tx.signature.r % 2 ^ 128,
       tx.signature.s / 2 ^ 128, tx.signature.s % 2 ^ 128,
       if tx.isLegacy then signature_v tx.signature tx.chain_id
       else if tx.signature.odd_y_parity then 1 else 0] := by
    unfold transaction_signature_to_field_elements
    rw [split_u256_eq hr, split_u256_eq hs]
    rfl
  refine ⟨he, by rw [he]; rfl, ?_, ?_⟩
  · rw [Nat.mul_comm]
    exact Nat.div_add_mod tx.signature.r (2 ^ 128)
  · rw [Nat.mul_comm]
    exact Nat.div_add_mod tx.signature.s (2 ^ 128)

/-- Witness for C4 at a concrete transaction. -/
theorem transaction_signature_five_elements_witness :
    transaction_signature_to_field_elements
      { isLegacy := true, chain_id := some 1, gas_limit := 0,
        max_fee_per_gas := 0, max_priority_fee_per_gas := none, hash := 0,
        signature := { r := 2 ^ 130 + 7, s := 12, odd_y_parity := false },
        recover_signer := some 0, signedData := [] } =
      [4, 7, 0, 12, 37] := by
  have h := transaction_signature_five_elements
    { isLegacy := true, chain_id := some 1, gas_limit := 0,
      max_fee_per_gas := 0, max_priority_fee_per_gas := none, hash := 0,
      signature := { r := 2 ^ 130 + 7, s := 12, odd_y_parity := false },
      recover_signer := some 0, signedData := [] }
    (by norm_num) (by norm_num)
  rw [h.1]
  norm_num [signature_v]

/-- C5: the fifth element is the legacy recovery value
`v = parity + 2·chain_id + 35` (chain id present) or `v = parity + 27`
(chain id absent) for legacy transactions, and the raw parity bit for
non-legacy transactions. -/
theorem transaction_signature_recovery_element (tx : TransactionSigned) :
    (tx.isLegacy = true → ∀ c, tx.chain_id = some c →
      (transaction_signature_to_field_elements tx)[4]? =
        some ((if tx.signature.odd_y_parity then 1 else 0) + 2 * c + 35)) ∧
    (tx.isLegacy = true → tx.chain_id = none →
      (transaction_signature_to_field_elements tx)[4]? =
        some ((if tx.signature.odd_y_parity then 1 else 0) + 27)) ∧
    (tx.isLegacy = false →
      (transaction_signature_to_field_elements tx)[4]? =
        some (if tx.signature.odd_y_parity then 1 else 0)) := by
  refine ⟨?_, ?_, ?_⟩
  · intro hleg c hc
    simp [transaction_signature_to_field_elements, split_u256, hleg, hc,
      signature_v]
    ring
  · intro hleg hc
    simp [transaction_signature_to_field_elements, split_u256, hleg, hc,
      signature_v]
  · intro hleg
    simp [transaction_signature_to_field_elements, split_u256, hleg]

/-- Witness for C5: legacy with chain id 1 and parity 0 encodes `v = 37`;
parity 1 encodes `v = 38`; a typed transaction with parity 1 encodes `1`. -/
theorem transaction_signature_recovery_element_witness :
    (transaction_signature_to_field_elements
      { isLegacy := true, chain_id := some 1, gas_limit := 0,
        max_fee_per_gas := 0, max_priority_fee_per_gas := none, hash := 0,
        signature := { r := 0, s := 0, odd_y_parity := false },
        recover_signer := some 0, signedData := [] })[4]? = some 37 ∧
    (transaction_signature_to_field_elements
      { isLegacy := true, chain_id := some 1, gas_limit := 0,
        max_fee_per_gas := 0, max_priority_fee_per_gas := none, hash := 0,
        signature := { r := 0, s := 0, odd_y_parity := true },
        recover_signer := some 0, signedData := [] })[4]? = some 38 ∧
    (transaction_signature_to_field_elements
      { isLegacy := false, chain_id := some 1, gas_limit := 0,
        max_fee_per_gas := 0, max_priority_fee_per_gas := none, hash := 0,
        signature := { r := 0, s := 0, odd_y_parity := true },
        recover_signer := some 0, signedData := [] })[4]? = some 1 := by
  refine ⟨?_, ?_, ?_⟩
  · have h := (transaction_signature_recovery_element
      { isLegacy := true, chain_id := some 1, gas_limit := 0,
        max_fee_per_gas := 0, max_priority_fee_per_gas := none, hash := 0,
        signature := { r := 0, s := 0, odd_y_parity := false },
        recover_signer := some 0, signedData := [] }).1 rfl 1 rfl
    simpa using h
  · have h := (transaction_signature_recovery_element
      { isLegacy := true, chain_id := some 1, gas_limit := 0,
        max_fee_per_gas := 0, max_priority_fee_per_gas := none, hash := 0,
        signature := { r := 0, s := 0, odd_y_parity := true },
        recover_signer := some 0, signedData := [] }).1 rfl 1 rfl
    simpa using h
  · have h := (transaction_signature_recovery_element
      { isLegacy := false, chain_id := some 1, gas_limit := 0,
        max_fee_per_gas := 0, max_priority_fee_per_gas := none, hash := 0,
        signature := { r := 0, s := 0, odd_y_parity := true },
        recover_signer := some 0, signedData := [] }).2.2 rfl
    simpa using h

/-! ## Calldata encoding (`transaction_data_to_starknet_calldata`) -/

/-- Fuel-indexed splitting of a list into consecutive chunks of `n` elements
(the last chunk possibly shorter), modelling Rust's slice `chunks(n)`
iterator.  The fuel only bounds the number of iterations; `chunksOf` below
instantiates it with the list length, which suffices whenever `0 < n`. -/
def chunksOfFuel (n : Nat) : Nat → List Nat → List (List Nat)
  | _, [] => []
  | 0, _ :: _ => []
  | fuel + 1, a :: l => (a :: l).take n :: chunksOfFuel n fuel ((a :: l).drop n)

/-- `chunksOf n l` splits `l` into consecutive chunks of `n` elements, the
last chunk possibly shorter — Rust's `l.chunks(n)` collected to a list. -/
def chunksOf (n : Nat) (l : List Nat) : List (List Nat) :=
  chunksOfFuel n l.length l

theorem chunksOfFuel_congr (n : Nat) (hn : 0 < n) :
    ∀ f1 f2 (l : List Nat), l.length ≤ f1 → l.length ≤ f2 →
      chunksOfFuel n f1 l = chunksOfFuel n f2 l := by
  intro f1
  induction f1 with
  | zero =>
    intro f2 l hl1 _
    have : l = [] := List.eq_nil_of_length_eq_zero (Nat.le_zero.mp hl1)
    subst this
    cases f2 <;> rfl
  | succ f1 ih =>
    intro f2 l hl1 hl2
    cases l with
    | nil => cases f2 <;> rfl
    | cons a l =>
      cases f2 with
      | zero => exact absurd hl2 (by simp)
      | succ f2 =>
        simp only [chunksOfFuel]
        congr 1
        apply ih
        · simp only [List.length_drop, List.length_cons]
          simp only [List.length_cons] at hl1
          omega
        · simp only [List.length_drop, List.length_cons]
          simp only [List.length_cons] at hl2
          omega

theorem chunksOf_eq (n : Nat) (hn : 0 < n) (l : List Nat) :
    chunksOf n l =
      if l = [] then [] else l.take n :: chunksOf n (l.drop n) := by
  cases l with
  | nil => rfl
  | cons a l =>
    rw [if_neg (by simp)]
    show chunksOfFuel n (l.length + 1) (a :: l) = _
    simp only [chunksOfFuel]
    congr 1
    apply chunksOfFuel_congr n hn
    · simp only [List.length_drop, List.length_cons]
      omega
    · exact le_rfl

theorem chunksOf_flatten (n : Nat) (hn : 0 < n) (l : List Nat) :
    (chunksOf n l).flatten = l := by
  have H : ∀ k (l : List Nat), l.length ≤ k → (chunksOf n l).flatten = l := by
    intro k
    induction k with
    | zero =>
      intro l hl
      have : l = [] := List.eq_nil_of_length_eq_zero (Nat.le_zero.mp hl)
      subst this
      rfl
    | succ k ih =>
      intro l hl
      rw [chunksOf_eq n hn l]
      by_cases hnil : l = []
      · simp [hnil]
      · rw [if_neg hnil]
        rw [List.flatten_cons]
        rw [ih (l.drop n) (by
          simp only [List.length_drop]
          have : 0 < l.length := List.length_pos.mpr hnil
          omega)]
        exact List.take_append_drop n l
  exact H l.length l le_rfl

theorem chunksOf_length (n : Nat) (hn : 0 < n) (l : List Nat) :
    (chunksOf n l).length = (l.length + n - 1) / n := by
  have H : ∀ k (l : List Nat), l.length ≤ k →
      (chunksOf n l).length = (l.length + n - 1) / n := by
    intro k
    induction k with
    | zero =>
      intro l hl
      have : l = [] := List.eq_nil_of_length_eq_zero (Nat.le_zero.mp hl)
      subst this
      have hdiv : (0 + n - 1) / n = 0 := Nat.div_eq_of_lt (by omega)
      simp only [chunksOf, chunksOfFuel, List.length_nil]
      omega
    | succ k ih =>
      intro l hl
      rw [chunksOf_eq n hn l]
      by_cases hnil : l = []
      · subst hnil
        rw [if_pos rfl]
        have hdiv : (0 + n - 1) / n = 0 := Nat.div_eq_of_lt (by omega)
        simp only [List.length_nil]
        omega
      · rw [if_neg hnil]
        have hpos : 0 < l.length := List.length_pos.mpr hnil
        rw [List.length_cons]
        rw [ih (l.drop n) (by
          simp only [List.length_drop]
          omega)]
        simp only [List.length_drop]
        have hrw : l.length + n - 1 = (l.length - 1) + n := by omega
        rw [hrw, Nat.add_div_right _ hn]
        by_cases hle : l.length ≤ n
        · have h0 : l.length - n = 0 := by omega
          rw [h0]
          rw [Nat.div_eq_of_lt (show 0 + n - 1 < n by omega),
            Nat.div_eq_of_lt (show l.length - 1 < n by omega)]
        · have hrw2 : l.length - n + n - 1 = l.length - 1 := by omega
          rw [hrw2]
  exact H l.length l le_rfl

theorem chunksOf_chunk_length (n : Nat) (hn : 0 < n) (l : List Nat) :
    ∀ c ∈ chunksOf n l, c.length ≤ n := by
  have H : ∀ k (l : List Nat), l.length ≤ k →
      ∀ c ∈ chunksOf n l, c.length ≤ n := by
    intro k
    induction k with
    | zero =>
      intro l hl c hc
      have : l = [] := List.eq_nil_of_length_eq_zero (Nat.le_zero.mp hl)
      subst this
      exact absurd hc (by simp [chunksOf, chunksOfFuel])
    | succ k ih =>
      intro l hl c hc
      rw [chunksOf_eq n hn l] at hc
      by_cases hnil : l = []
      · rw [if_pos hnil] at hc
        exact absurd hc (by simp)
      · rw [if_neg hnil] at hc
        rcases List.mem_cons.mp hc with h | h
        · subst h
          simp [List.length_take]
        · refine ih (l.drop n) ?_ c h
          simp only [List.length_drop]
          have : 0 < l.length := List.length_pos.mpr hnil
          omega
  exact H l.length l le_rfl

/-- Big-endian interpretation of a byte string as a natural number. -/
def bytesToNatBE (bytes : List Nat) : Nat :=
  bytes.foldl (fun acc b => acc * 256 + b) 0

/-- `Felt::from_bytes_be_slice`: the big-endian value of the bytes, reduced
into the field (the reduction is provably inert for the ≤ 31-byte chunks the
encoder produces). -/
def from_bytes_be_slice (bytes : List Nat) : Nat :=
  feltOfNat (bytesToNatBE bytes)

theorem foldl_base256_lt (bytes : List Nat) :
    ∀ acc, (∀ b ∈ bytes, b < 256) →
      bytes.foldl (fun acc b => acc * 256 + b) acc <
        (acc + 1) * 256 ^ bytes.length := by
  induction bytes with
  | nil =>
    intro acc _
    simp
  | cons b bs ih =>
    intro acc hb
    simp only [List.foldl_cons, List.length_cons]
    calc bs.foldl (fun acc b => acc * 256 + b) (acc * 256 + b)
        < (acc * 256 + b + 1) * 256 ^ bs.length :=
          ih (acc * 256 + b) (fun x hx => hb x (List.mem_cons_of_mem b hx))
      _ ≤ ((acc + 1) * 256) * 256 ^ bs.length := by
          have hb' : b < 256 := hb b (List.mem_cons_self b bs)
          have : acc * 256 + b + 1 ≤ (acc + 1) * 256 := by nlinarith
          exact Nat.mul_le_mul_right _ this
      _ = (acc + 1) * 256 ^ (bs.length + 1) := by ring

theorem bytesToNatBE_lt (bytes : List Nat) (hb : ∀ b ∈ bytes, b < 256) :
    bytesToNatBE bytes < 256 ^ bytes.length := by
  have := foldl_base256_lt bytes 0 hb
  simpa [bytesToNatBE] using this

theorem pow256_31_lt_prime : 256 ^ 31 < STARK_PRIME := by
  unfold STARK_PRIME
  norm_num

theorem from_bytes_be_slice_eq (bytes : List Nat) (hlen : bytes.length ≤ 31)
    (hb : ∀ b ∈ bytes, b < 256) :
    from_bytes_be_slice bytes = bytesToNatBE bytes := by
  apply feltOfNat_eq_of_lt
  calc bytesToNatBE bytes < 256 ^ bytes.length := bytesToNatBE_lt bytes hb
    _ ≤ 256 ^ 31 := Nat.pow_le_pow_right (by norm_num) hlen
    _ < STARK_PRIME := pow256_31_lt_prime

/-- The packed-data sequence built in
`src/models/transaction.rs`, lines 122–124: the payload length
(`usize → Felt` is lossless, so modelled as the plain length) followed by
each 31-byte chunk converted via `Felt::from_bytes_be_slice`. -/
def transaction_data_packed (signed_data : List Nat) : List Nat :=
  signed_data.length :: (chunksOf 31 signed_data).map from_bytes_be_slice

/-- Modelled from the spec: the fixed entry-point selector constant
`ETH_SEND_TRANSACTION` is defined in `eth_provider/starknet/kakarot_core.rs`,
outside the provided sources, as the Starknet selector (a 250-bit
starknet-keccak digest) of the `eth_send_transaction` entry point — per the
spec "a fixed constant chosen far below the modulus". -/
def ETH_SEND_TRANSACTION : Nat :=
  0x7099f594eb65e00576e1b940a8a735f80bf7604ac401c48627045c4cc286f0

/-- Shallow embedding of `transaction_data_to_starknet_calldata`
(`src/models/transaction.rs`, lines 114–156).  The globals it reads —
`KAKAROT_ADDRESS` and `MAX_FELTS_IN_CALLDATA` — are passed as parameters;
the `hive`-feature compile-time switch disabling the size check is modelled
as the boolean `enforce` (spec §9 models it the same way).  The internal
`assert!(selector < Felt::MAX - retries)` is proved to always succeed
(`selector_retries_monotone` below), so it does not contribute an outcome.
`Felt::ONE`, `Felt::ZERO` and the `usize → Felt` length conversions are
lossless and modelled as the plain numbers. -/
def transaction_data_to_starknet_calldata (tx : TransactionSigned)
    (retries : Nat) (kakarot_address : Nat) (max_felts : Nat)
    (enforce : Bool) : Except EthApiError (List Nat) :=
  let signed_data := transaction_data_packed tx.signedData
  let capacity := 6 + signed_data.length
  if enforce = true ∧ capacity > max_felts then
    .error (.CalldataExceededLimit max_felts capacity)
  else
    let selector := feltAdd ETH_SEND_TRANSACTION retries
    .ok ([1, kakarot_address, selector, 0, signed_data.length,
      signed_data.length] ++ signed_data)

theorem tds_ok_shape (tx : TransactionSigned) (retries addr maxF : Nat)
    (enf : Bool) (cd : List Nat)
    (h : transaction_data_to_starknet_calldata tx retries addr maxF enf =
      .ok cd) :
    cd = [1, addr, feltAdd ETH_SEND_TRANSACTION retries, 0,
      (transaction_data_packed tx.signedData).length,
      (transaction_data_packed tx.signedData).length] ++
      transaction_data_packed tx.signedData := by
  simp only [transaction_data_to_starknet_calldata] at h
  by_cases hc : enf = true ∧
      6 + (transaction_data_packed tx.signedData).length > maxF
  · rw [if_pos hc] at h
    exact absurd h (by simp)
  · rw [if_neg hc] at h
    simp only [Except.ok.injEq] at h
    exact h.symm

/-- C6: the packed-data sequence is the payload byte length followed by one
field element per consecutive 31-byte chunk (`ceil(len/31)` of them), each
the big-endian value of its chunk, and concatenating the chunks reproduces
the payload exactly. -/
theorem transaction_data_packed_spec (payload : List Nat)
    (hb : ∀ b ∈ payload, b < 256) :
    (transaction_data_packed payload).head? = some payload.length ∧
    (transaction_data_packed payload).length =
      1 + (payload.length + 30) / 31 ∧
    (transaction_data_packed payload).tail =
      (chunksOf 31 payload).map bytesToNatBE ∧
    (∀ c ∈ chunksOf 31 payload, c.length ≤ 31) ∧
    (chunksOf 31 payload).flatten = payload := by
  have hflat : (chunksOf 31 payload).flatten = payload :=
    chunksOf_flatten 31 (by norm_num) payload
  have hclen : ∀ c ∈ chunksOf 31 payload, c.length ≤ 31 :=
    chunksOf_chunk_length 31 (by norm_num) payload
  refine ⟨rfl, ?_, ?_, hclen, hflat⟩
  · show ((chunksOf 31 payload).map from_bytes_be_slice).length + 1 = _
    rw [List.length_map, chunksOf_length 31 (by norm_num) payload]
    omega
  · show (chunksOf 31 payload).map from_bytes_be_slice = _
    apply List.map_congr_left
    intro c hc
    refine from_bytes_be_slice_eq c (hclen c hc) ?_
    intro b hbc
    apply hb
    rw [← hflat]
    exact List.mem_flatten.mpr ⟨c, hc, hbc⟩

/-- Witness for C6 at a 33-byte payload (two chunks, the second shorter). -/
theorem transaction_data_packed_spec_witness :
    (transaction_data_packed (List.replicate 33 7)).head? = some 33 ∧
    (transaction_data_packed (List.replicate 33 7)).length = 3 ∧
    (transaction_data_packed (List.replicate 33 7)).tail =
      (chunksOf 31 (List.replicate 33 7)).map bytesToNatBE ∧
    (∀ c ∈ chunksOf 31 (List.replicate 33 7), c.length ≤ 31) ∧
    (chunksOf 31 (List.replicate 33 7)).flatten = List.replicate 33 7 := by
  have h := transaction_data_packed_spec (List.replicate 33 7) (by decide)
  refine ⟨?_, ?_, h.2.2.1, h.2.2.2.1, h.2.2.2.2⟩
  · have := h.1
    simpa using this
  · have := h.2.1
    simpa using this

/-- C7: on success the calldata is exactly
`[1, target_address, selector, 0, len, len] ++ packed_data`, both length
slots equal to the packed-data length (length prefix plus chunk count), and
the whole vector has `6 + len(packed_data)` elements. -/
theorem calldata_layout (tx : TransactionSigned) (retries addr maxF : Nat)
    (enf : Bool) (cd : List Nat)
    (h : transaction_data_to_starknet_calldata tx retries addr maxF enf =
      .ok cd) :
    cd = [1, addr, feltAdd ETH_SEND_TRANSACTION retries, 0,
      (transaction_data_packed tx.signedData).length,
      (transaction_data_packed tx.signedData).length] ++
      transaction_data_packed tx.signedData ∧
    cd.length = 6 + (transaction_data_packed tx.signedData).length ∧
    (transaction_data_packed tx.signedData).length =
      1 + (chunksOf 31 tx.signedData).length := by
  have hs := tds_ok_shape tx retries addr maxF enf cd h
  refine ⟨hs, ?_, ?_⟩
  · rw [hs]
    simp [List.length_append]
    omega
  · show ((chunksOf 31 tx.signedData).map from_bytes_be_slice).length + 1 = _
    rw [List.length_map]
    omega

/-- Witness for C7: a concrete empty-payload transaction, retries 0,
enforcement off. -/
theorem calldata_layout_witness :
    ([1, 1234, feltAdd ETH_SEND_TRANSACTION 0, 0, 1, 1, 0] : List Nat) =
      [1, 1234, feltAdd ETH_SEND_TRANSACTION 0, 0,
        (transaction_data_packed ([] : List Nat)).length,
        (transaction_data_packed ([] : List Nat)).length] ++
        transaction_data_packed ([] : List Nat) ∧
    ([1, 1234, feltAdd ETH_SEND_TRANSACTION 0, 0, 1, 1, 0] :
      List Nat).length =
      6 + (transaction_data_packed ([] : List Nat)).length ∧
    (transaction_data_packed ([] : List Nat)).length =
      1 + (chunksOf 31 ([] : List Nat)).length := by
  have h := calldata_layout
    { isLegacy := true, chain_id := some 1, gas_limit := 0,
      max_fee_per_gas := 0, max_priority_fee_per_gas := none, hash := 0,
      signature := { r := 0, s := 0, odd_y_parity := false },
      recover_signer := some 0, signedData := [] }
    0 1234 0 false [1, 1234, feltAdd ETH_SEND_TRANSACTION 0, 0, 1, 1, 0]
    (by rfl)
  exact h

/-- C8: with `capacity = 6 + len(packed_data)`, enforcement on and
`capacity > max_felts` yields `CalldataExceededLimit(max_felts, capacity)`
and no calldata; with enforcement off the same input always succeeds; and
with `capacity ≤ max_felts` the limit check never fires. -/
theorem calldata_limit_check (tx : TransactionSigned)
    (retries addr maxF : Nat) :
    (maxF < 6 + (transaction_data_packed tx.signedData).length →
      transaction_data_to_starknet_calldata tx retries addr maxF true =
        .error (.CalldataExceededLimit maxF
          (6 + (transaction_data_packed tx.signedData).length))) ∧
    (transaction_data_to_starknet_calldata tx retries addr maxF false =
      .ok ([1, addr, feltAdd ETH_SEND_TRANSACTION retries, 0,
        (transaction_data_packed tx.signedData).length,
        (transaction_data_packed tx.signedData).length] ++
        transaction_data_packed tx.signedData)) ∧
    (6 + (transaction_data_packed tx.signedData).length ≤ maxF →
      transaction_data_to_starknet_calldata tx retries addr maxF true =
        .ok ([1, addr, feltAdd ETH_SEND_TRANSACTION retries, 0,
          (transaction_data_packed tx.signedData).length,
          (transaction_data_packed tx.signedData).length] ++
          transaction_data_packed tx.signedData)) := by
  have tds_eq : ∀ (enf : Bool),
      transaction_data_to_starknet_calldata tx retries addr maxF enf =
        if enf = true ∧
            6 + (transaction_data_packed tx.signedData).length > maxF then
          .error (.CalldataExceededLimit maxF
            (6 + (transaction_data_packed tx.signedData).length))
        else
          .ok ([1, addr, feltAdd ETH_SEND_TRANSACTION retries, 0,
            (transaction_data_packed tx.signedData).length,
            (transaction_data_packed tx.signedData).length] ++
            transaction_data_packed tx.signedData) := fun _ => rfl
  refine ⟨?_, ?_, ?_⟩
  · intro hover
    rw [tds_eq true, if_pos ⟨rfl, hover⟩]
  · rw [tds_eq false, if_neg (fun h => absurd h.1 (by simp))]
  · intro hle
    rw [tds_eq true, if_neg (fun h => absurd h.2 (by omega))]

/-- Witness for C8: a transaction whose capacity 7 exceeds a limit of 3
under enforcement, and the same input succeeding with enforcement off. -/
theorem calldata_limit_check_witness :
    (3 < 6 + (transaction_data_packed ([] : List Nat)).length →
      transaction_data_to_starknet_calldata
        { isLegacy := true, chain_id := some 1, gas_limit := 0,
          max_fee_per_gas := 0, max_priority_fee_per_gas := none, hash := 0,
          signature := { r := 0, s := 0, odd_y_parity := false },
          recover_signer := some 0, signedData := [] } 0 1234 3 true =
        .error (.CalldataExceededLimit 3
          (6 + (transaction_data_packed ([] : List Nat)).length))) ∧
    (transaction_data_to_starknet_calldata
        { isLegacy := true, chain_id := some 1, gas_limit := 0,
          max_fee_per_gas := 0, max_priority_fee_per_gas := none, hash := 0,
          signature := { r := 0, s := 0, odd_y_parity := false },
          recover_signer := some 0, signedData := [] } 0 1234 3 false =
      .ok ([1, 1234, feltAdd ETH_SEND_TRANSACTION 0, 0,
        (transaction_data_packed ([] : List Nat)).length,
        (transaction_data_packed ([] : List Nat)).length] ++
        transaction_data_packed ([] : List Nat))) :=
  ⟨(calldata_limit_check
      { isLegacy := true, chain_id := some 1, gas_limit := 0,
        max_fee_per_gas := 0, max_priority_fee_per_gas := none, hash := 0,
        signature := { r := 0, s := 0, odd_y_parity := false },
        recover_signer := some 0, signedData := [] } 0 1234 3).1,
   (calldata_limit_check
      { isLegacy := true, chain_id := some 1, gas_limit := 0,
        max_fee_per_gas := 0, max_priority_fee_per_gas := none, hash := 0,
        signature := { r := 0, s := 0, odd_y_parity := false },
        recover_signer := some 0, signedData := [] } 0 1234 3).2.1⟩

/-- C9: for retries up to 255, `selector + retries` does not wrap (it stays
strictly below the field modulus, so the internal assertion
`selector < Felt::MAX - retries` never fails) and the map
`retries ↦ selector + retries` is strictly increasing and injective. -/
theorem selector_retries_monotone (r r1 r2 : Nat) (hr : r ≤ 255)
    (h1 : r1 ≤ 255) (h2 : r2 ≤ 255) :
    feltAdd ETH_SEND_TRANSACTION r = ETH_SEND_TRANSACTION + r ∧
    feltAdd ETH_SEND_TRANSACTION r < STARK_PRIME ∧
    ETH_SEND_TRANSACTION < STARK_PRIME - 1 - r ∧
    (r1 < r2 →
      feltAdd ETH_SEND_TRANSACTION r1 < feltAdd ETH_SEND_TRANSACTION r2) ∧
    (feltAdd ETH_SEND_TRANSACTION r1 = feltAdd ETH_SEND_TRANSACTION r2 →
      r1 = r2) := by
  have hE : ETH_SEND_TRANSACTION + 256 < STARK_PRIME := by decide
  have heq : ∀ s, s ≤ 255 →
      feltAdd ETH_SEND_TRANSACTION s = ETH_SEND_TRANSACTION + s := by
    intro s hs
    unfold feltAdd
    exact Nat.mod_eq_of_lt (by omega)
  refine ⟨heq r hr, ?_, ?_, ?_, ?_⟩
  · rw [heq r hr]
    omega
  · omega
  · intro hlt
    rw [heq r1 h1, heq r2 h2]
    omega
  · intro heq12
    rw [heq r1 h1, heq r2 h2] at heq12
    omega

/-- Witness for C9 at retries 255, 3 and 7. -/
theorem selector_retries_monotone_witness :
    feltAdd ETH_SEND_TRANSACTION 255 = ETH_SEND_TRANSACTION + 255 ∧
    feltAdd ETH_SEND_TRANSACTION 255 < STARK_PRIME ∧
    ETH_SEND_TRANSACTION < STARK_PRIME - 1 - 255 ∧
    (3 < 7 →
      feltAdd ETH_SEND_TRANSACTION 3 < feltAdd ETH_SEND_TRANSACTION 7) ∧
    (feltAdd ETH_SEND_TRANSACTION 3 = feltAdd ETH_SEND_TRANSACTION 7 →
      3 = 7) :=
  selector_retries_monotone 255 3 7 (by decide) (by decide) (by decide)

/-- C10: two successful encodings of the same transaction that differ only
in `retries` have the same length and agree at every index except index 2
(the selector slot). -/
theorem calldata_retries_frame (tx : TransactionSigned)
    (addr maxF r1 r2 : Nat) (enf : Bool) (cd1 cd2 : List Nat)
    (h1 : transaction_data_to_starknet_calldata tx r1 addr maxF enf =
      .ok cd1)
    (h2 : transaction_data_to_starknet_calldata tx r2 addr maxF enf =
      .ok cd2) :
    cd1.length = cd2.length ∧ ∀ i, i ≠ 2 → cd1[i]? = cd2[i]? := by
  have hs1 := tds_ok_shape tx r1 addr maxF enf cd1 h1
  have hs2 := tds_ok_shape tx r2 addr maxF enf cd2 h2
  subst hs1
  subst hs2
  constructor
  · simp [List.length_append]
  · intro i hi
    rcases i with _ | _ | _ | _ | _ | _ | i
    · rfl
    · rfl
    · exact absurd rfl hi
    · rfl
    · rfl
    · rfl
    · rw [List.getElem?_append_right (by simp),
        List.getElem?_append_right (by simp)]
      simp

/-- Witness for C10: the same empty-payload transaction encoded with
retries 0 and 5. -/
theorem calldata_retries_frame_witness :
    ([1, 1234, feltAdd ETH_SEND_TRANSACTION 0, 0, 1, 1, 0] :
        List Nat).length =
      ([1, 1234, feltAdd ETH_SEND_TRANSACTION 5, 0, 1, 1, 0] :
        List Nat).length ∧
    ∀ i, i ≠ 2 →
      ([1, 1234, feltAdd ETH_SEND_TRANSACTION 0, 0, 1, 1, 0] :
        List Nat)[i]? =
      ([1, 1234, feltAdd ETH_SEND_TRANSACTION 5, 0, 1, 1, 0] :
        List Nat)[i]? :=
  calldata_retries_frame
    { isLegacy := true, chain_id := some 1, gas_limit := 0,
      max_fee_per_gas := 0, max_priority_fee_per_gas := none, hash := 0,
      signature := { r := 0, s := 0, odd_y_parity := false },
      recover_signer := some 0, signedData := [] }
    1234 100 0 5 false
    [1, 1234, feltAdd ETH_SEND_TRANSACTION 0, 0, 1, 1, 0]
    [1, 1234, feltAdd ETH_SEND_TRANSACTION 5, 0, 1, 1, 0]
    (by rfl) (by rfl)

/-- Witness for C1: a transaction with gas limit 200 against a tracing
ceiling of 100 is rejected with `GasOverflow`. -/
theorem validate_transaction_first_failure_witness :
    validate_transaction
      { isLegacy := true, chain_id := some 1, gas_limit := 200,
        max_fee_per_gas := 10, max_priority_fee_per_gas := none, hash := 0,
        signature := { r := 0, s := 0, odd_y_parity := false },
        recover_signer := some 1, signedData := [] } 1
      { base_fee_per_gas := some 3, gas_limit := 1000 } [] 100 =
      .error .GasOverflow :=
  (validate_transaction_first_failure
    { isLegacy := true, chain_id := some 1, gas_limit := 200,
      max_fee_per_gas := 10, max_priority_fee_per_gas := none, hash := 0,
      signature := { r := 0, s := 0, odd_y_parity := false },
      recover_signer := some 1, signedData := [] } 1
    { base_fee_per_gas := some 3, gas_limit := 1000 } [] 100).1
    (by norm_num [gasCeilOk])

/-- Witness for C2: a legacy transaction without a chain id whose hash is
not whitelisted is rejected with `InvalidTransactionType`. -/
theorem validate_transaction_chain_id_whitelist_witness :
    validate_transaction
      { isLegacy := true, chain_id := none, gas_limit := 100,
        max_fee_per_gas := 10, max_priority_fee_per_gas := none, hash := 5,
        signature := { r := 0, s := 0, odd_y_parity := false },
        recover_signer := some 1, signedData := [] } 1
      { base_fee_per_gas := some 3, gas_limit := 1000 } [] 1000 =
      .error .InvalidTransactionType :=
  ((validate_transaction_chain_id_whitelist
    { isLegacy := true, chain_id := none, gas_limit := 100,
      max_fee_per_gas := 10, max_priority_fee_per_gas := none, hash := 5,
      signature := { r := 0, s := 0, odd_y_parity := false },
      recover_signer := some 1, signedData := [] } 1
    { base_fee_per_gas := some 3, gas_limit := 1000 } [] 1000
    (by norm_num [gasCeilOk]) (by simp [sigRecoverOk])).2.1 rfl).mpr
    (by simp)

/-- Witness for C3: base fee 5 against fee cap 3 yields
`FeeCapTooLow(3, 5)`. -/
theorem validate_transaction_fee_checks_witness :
    validate_transaction
      { isLegacy := true, chain_id := some 1, gas_limit := 100,
        max_fee_per_gas := 3, max_priority_fee_per_gas := none, hash := 0,
        signature := { r := 0, s := 0, odd_y_parity := false },
        recover_signer := some 1, signedData := [] } 1
      { base_fee_per_gas := some 5, gas_limit := 1000 } [] 1000 =
      .error (.FeeCapTooLow 3 5) :=
  (validate_transaction_fee_checks
    { isLegacy := true, chain_id := some 1, gas_limit := 100,
      max_fee_per_gas := 3, max_priority_fee_per_gas := none, hash := 0,
      signature := { r := 0, s := 0, odd_y_parity := false },
      recover_signer := some 1, signedData := [] } 1
    { base_fee_per_gas := some 5, gas_limit := 1000 } [] 1000
    (by norm_num [gasCeilOk]) (by simp [sigRecoverOk])
    (by simp [chainIdOk]) (by simp [whitelistOk])).1.mpr (by norm_num)

end KakarotRpc
